import Mathlib

/-!
Shallow embedding of `beetsplug/artistcountry.py` (the beets-artistcountry
plugin) in Lean 4, together with theorems settling the frozen claims about
its specification.

Modelling conventions:
* Python dicts are association lists (`List (String × _)`); insertion
  replaces an existing binding in place or appends a fresh one, matching
  CPython dict semantics (update keeps position, new key goes last).
* Keys that the Python code reads with `d.get(k, default)` or may find
  absent are `Option` fields.
* Exceptions are `Except`/`Option` failure values; the external
  MusicBrainz client (`get_artist_by_id`, `get_area_by_id`) and the clock
  (`datetime.now().isoformat()`) are an explicit environment `MBEnv`.
* The unbounded recursion of `_find_top_area` is given explicit fuel; a
  `none` result means the recursion did not finish within the fuel, so
  non-termination of the Python function is `∀ fuel, result = none`.
* `str.lower()` is modelled character-wise with `Char.toLower` (the data
  it is applied to, ISO 3166-1 codes, is ASCII).
-/

namespace ArtistCountry

/-- Log levels used by the plugin (`self._log.debug/info/warning`). -/
inductive LogLevel where
  | debug
  | info
  | warning
deriving DecidableEq, Repr

/-- A log line: level plus rendered message. -/
abbrev Log := List (LogLevel × String)

/-- One cache record, as written by `get_artist_country`: the Python code
stores a dict with keys `country`, `cached`, and either `name` (success) or
`error` (failure).  A field is `none` when the key is absent, since the
code reads the record back with `.get('country', '')`. -/
structure CacheRecord where
  country : Option String
  cached : Option String
  name : Option String
  error : Option String
deriving DecidableEq, Repr

/-- The in-memory cache: a mapping from MusicBrainz artist id to record
(`self._cache` once loaded). -/
abbrev Cache := List (String × CacheRecord)

/-- Dict lookup `cache[k]` / `k in cache`. -/
def lookupCache : Cache → String → Option CacheRecord
  | [], _ => none
  | (k, v) :: rest, key => if k = key then some v else lookupCache rest key

/-- Dict update `cache[k] = v`: replace in place, or append a new binding. -/
def insertCache : Cache → String → CacheRecord → Cache
  | [], key, v => [(key, v)]
  | (k, w) :: rest, key, v =>
    if k = key then (key, v) :: rest else (k, w) :: insertCache rest key v

/-- The fragment of JSON the cache file uses: strings and objects.
`json.dump` writes the cache as an object of objects of strings. -/
inductive Json where
  | str : String → Json
  | obj : List (String × Json) → Json

/-- Association lookup inside a JSON object's field list. -/
def jlookup : List (String × Json) → String → Option Json
  | [], _ => none
  | (k, v) :: rest, key => if k = key then some v else jlookup rest key

/-- Serialize one cache record to a JSON object (the dict literal built in
`get_artist_country`; a key is present exactly when the field is `some`). -/
def recordToJson (r : CacheRecord) : Json :=
  .obj ((match r.country with | some s => [("country", Json.str s)] | none => []) ++
        (match r.cached with | some s => [("cached", Json.str s)] | none => []) ++
        (match r.name with | some s => [("name", Json.str s)] | none => []) ++
        (match r.error with | some s => [("error", Json.str s)] | none => []))

/-- Serialize the whole cache mapping to a JSON object, as `json.dump`
does for the dict `self._cache`. -/
def cacheToJson (c : Cache) : Json :=
  .obj (c.map (fun p => (p.1, recordToJson p.2)))

/-- Read one optional string field of a record object; `some none` when
the key is absent, `none` when the value is not a string. -/
def jsonField (fields : List (String × Json)) (key : String) : Option (Option String) :=
  match jlookup fields key with
  | none => some none
  | some (Json.str s) => some (some s)
  | some (Json.obj _) => none

/-- Decode a JSON value back into a cache record (the shape `json.load`
produces for a record written by `save_cache`). -/
def jsonToRecord : Json → Option CacheRecord
  | Json.str _ => none
  | Json.obj fields =>
    match jsonField fields "country", jsonField fields "cached",
          jsonField fields "name", jsonField fields "error" with
    | some c, some t, some n, some e =>
      some { country := c, cached := t, name := n, error := e }
    | _, _, _, _ => none

/-- Decode the field list of the top-level JSON object into a cache. -/
def jsonToCacheEntries : List (String × Json) → Option Cache
  | [] => some []
  | (k, v) :: rest =>
    match jsonToRecord v, jsonToCacheEntries rest with
    | some r, some c => some ((k, r) :: c)
    | _, _ => none

/-- Decode a JSON document into a cache mapping. -/
def jsonToCache : Json → Option Cache
  | Json.str _ => none
  | Json.obj fields => jsonToCacheEntries fields

/-- The cache file on disk: missing, unparseable (raises
`json.JSONDecodeError` on load), or holding a JSON document. -/
inductive CacheFile where
  | missing
  | corrupt
  | json : Json → CacheFile

/-- Plugin state: `self._cache` (None until first load) and the cache
file at `self.cache_file`. -/
structure PluginState where
  cache : Option Cache
  file : CacheFile

/-- Model of `load_cache`: return the memoized cache if present; otherwise read the
file, falling back to an empty mapping (with a warning) when the file is
missing or unreadable.  Returns the cache, the updated state and the log.
The decoder failing corresponds to a file that does not hold a cache-shaped
document; the plugin itself only ever writes cache-shaped documents. -/
def load_cache (s : PluginState) : Cache × PluginState × Log :=
  match s.cache with
  | some c => (c, s, [])
  | none =>
    match s.file with
    | CacheFile.missing => ([], { s with cache := some [] }, [])
    | CacheFile.corrupt =>
      ([], { s with cache := some [] }, [(LogLevel.warning, "Error loading artist cache")])
    | CacheFile.json j =>
      match jsonToCache j with
      | some c => (c, { s with cache := some c }, [])
      | none =>
        ([], { s with cache := some [] }, [(LogLevel.warning, "Error loading artist cache")])

/-- Model of `save_cache`: write `self._cache` to the cache file as JSON; a no-op
when the cache was never loaded. -/
def save_cache (s : PluginState) : PluginState :=
  match s.cache with
  | none => s
  | some c => { s with file := CacheFile.json (cacheToJson c) }

/-- An area dict as seen by `_find_top_area` / `_has_country_iso_code`:
`id` is always read with `area['id']`; `type` and `iso-3166-1-code-list`
may be absent (the code indexes them, raising `KeyError`). -/
structure Area where
  id : String
  type : Option String
  isoCodes : Option (List String)
deriving DecidableEq, Repr

/-- One entry of an `area-relation-list`: the optional `direction` key
(read with `.get('direction', '')`) and the related area. -/
structure AreaRel where
  direction : Option String
  area : Area
deriving DecidableEq, Repr

/-- An artist dict as used by `get_artist_country`: `country`, `area` and
`name` keys may each be absent. -/
structure Artist where
  country : Option String
  area : Option Area
  name : Option String
deriving DecidableEq, Repr

/-- The external MusicBrainz client and clock.
`artistFetch id` models `get_artist_by_id(id)['artist']`: `Except.error e`
when the call (or the `'artist'` indexing) raises, with `e` the rendered
exception text `str(e)`.
`areaRels id` models `get_area_by_id(id, includes=['area-rels'])` followed
by the `['area']['area-relation-list']` indexing: `none` when any of that
raises. `now` is `datetime.now().isoformat()`. -/
structure MBEnv where
  artistFetch : String → Except String Artist
  areaRels : String → Option (List AreaRel)
  now : String

/-- Model of `_has_country_iso_code(area)`: `area['type'] == "Country" and
"iso-3166-1-code-list" in area`.  `none` models the `KeyError` raised when
the `type` key is absent. -/
def has_country_iso_code (a : Area) : Option Bool :=
  match a.type with
  | none => none
  | some t => some (t = "Country" && a.isoCodes.isSome)

/-- The backward-relation areas: the list comprehension
`[a['area'] for a in rels if a.get('direction', '') == 'backward']`. -/
def backwardAreas (rels : List AreaRel) : List Area :=
  (rels.filter (fun r => r.direction.getD "" = "backward")).map AreaRel.area

/-- Model of `_find_top_area(area)` with explicit fuel.  The outer `none` is fuel
exhaustion (the Python recursion still running); `some (Except.error ())`
is a raised exception (a failed area fetch or a `KeyError`);
`some (Except.ok codes)` is a normal return of `iso-3166-1-code-list`. -/
def find_top_area (env : MBEnv) : Nat → Area → Option (Except Unit (List String))
  | 0, _ => none
  | fuel + 1, area =>
    match env.areaRels area.id with
    | none => some (Except.error ())
    | some rels =>
      match backwardAreas rels with
      | [] =>
        match area.isoCodes with
        | none => some (Except.error ())
        | some codes => some (Except.ok codes)
      | a :: _ =>
        match has_country_iso_code a with
        | none => some (Except.error ())
        | some true =>
          match a.isoCodes with
          | none => some (Except.error ())
          | some codes => some (Except.ok codes)
        | some false => find_top_area env fuel a

/-- Model of `_country_from_area(area)`: first element of the code list returned by
`_find_top_area`; an empty list raises `IndexError` (an error here). -/
def country_from_area (env : MBEnv) (fuel : Nat) (a : Area) :
    Option (Except Unit String) :=
  match find_top_area env fuel a with
  | none => none
  | some (Except.error _) => some (Except.error ())
  | some (Except.ok codes) =>
    match codes.head? with
    | none => some (Except.error ())
    | some c => some (Except.ok c)

/-- One step of the traversal: `some a'` exactly when `_find_top_area`
recurses, on the area `a'`; `none` when it returns or raises. -/
def walkStep (env : MBEnv) (a : Area) : Option Area :=
  match env.areaRels a.id with
  | none => none
  | some rels =>
    match backwardAreas rels with
    | [] => none
    | a' :: _ =>
      match has_country_iso_code a' with
      | none => none
      | some true => none
      | some false => some a'

/-- The chain of first backward relations from `a` stops (returns or
raises) within `n` recursive calls. -/
def stops (env : MBEnv) : Nat → Area → Bool
  | 0, _ => false
  | n + 1, a =>
    match walkStep env a with
    | none => true
    | some a' => stops env n a'

/-- The recursion of `_find_top_area` on `a` terminates: some finite fuel
suffices for it to return or raise. -/
def Terminates (env : MBEnv) (a : Area) : Prop :=
  ∃ fuel, (find_top_area env fuel a).isSome

/-- Python `str.lower()`, character-wise (the values it is applied to are
ASCII ISO 3166-1 codes). -/
def pyLower (s : String) : String :=
  ⟨s.data.map Char.toLower⟩

/-- The identifier shape guard of `get_artist_country`:
`not mb_artistid or len(mb_artistid) != 36 or mb_artistid.count('-') != 4`
(this definition is the negation of that test). -/
def validShape (id : String) : Bool :=
  !(id = "") && id.length = 36 && id.data.count '-' = 4

/-- Everything `get_artist_country` produces: the returned string, the
plugin state after, whether any remote MusicBrainz call was made, whether
`load_cache` was invoked, and the log lines emitted. -/
structure GACOut where
  ret : String
  st : PluginState
  remoteCalled : Bool
  cacheLoaded : Bool
  logs : Log

/-- Lines 90–95 of the source: keep the artist's own `country` when it is
truthy; otherwise, when the artist has an `area`, try
`_country_from_area`, swallowing any exception from the walk with a debug
log.  Returns the country string and the log lines; `none` is the walk
not finishing within the fuel. -/
def areaCountry (env : MBEnv) (fuel : Nat) (mb_artistid : String) (artist : Artist) :
    Option (String × Log) :=
  let c0 := artist.country.getD ""
  if c0 = "" then
    match artist.area with
    | none => some (c0, [])
    | some a =>
      match country_from_area env fuel a with
      | none => none
      | some (Except.ok c) => some (c, [])
      | some (Except.error _) =>
        some (c0, [(LogLevel.debug, "No country from area for artist " ++ mb_artistid)])
  else some (c0, [])

/-- Model of `get_artist_country(mb_artistid)`.  `fuel` bounds the recursion of
`_find_top_area`; the result is `none` only when that recursion fails to
finish within the fuel (the Python call still running). -/
def get_artist_country (env : MBEnv) (fuel : Nat) (s : PluginState)
    (mb_artistid : String) : Option GACOut :=
  if !validShape mb_artistid then
    some { ret := "", st := s, remoteCalled := false, cacheLoaded := false, logs := [] }
  else
    match load_cache s with
    | (cache, s1, logs0) =>
      match lookupCache cache mb_artistid with
      | some r =>
        some { ret := r.country.getD "", st := s1, remoteCalled := false,
               cacheLoaded := true, logs := logs0 }
      | none =>
        match env.artistFetch mb_artistid with
        | Except.error e =>
          let r : CacheRecord :=
            { country := some "", cached := some env.now, name := none, error := some e }
          let s2 := save_cache { s1 with cache := some (insertCache cache mb_artistid r) }
          some { ret := "", st := s2, remoteCalled := true, cacheLoaded := true,
                 logs := logs0 ++
                   [(LogLevel.debug,
                     "Error fetching country for artist " ++ mb_artistid ++ ": " ++ e)] }
        | Except.ok artist =>
          match areaCountry env fuel mb_artistid artist with
          | none => none
          | some (country, wlogs) =>
            let cc := if country = "" then "" else pyLower country
            let r : CacheRecord :=
              { country := some cc, cached := some env.now,
                name := some (artist.name.getD ""), error := none }
            let s2 := save_cache { s1 with cache := some (insertCache cache mb_artistid r) }
            some { ret := cc, st := s2, remoteCalled := true, cacheLoaded := true,
                   logs := logs0 ++ wlogs }

/-- A beets library item as this plugin sees it: the flexible attributes
(`item._values_flex`), the fixed `mb_artistid` field, and a counter of
`item.store()` calls (the persistence effect). -/
structure Item where
  valuesFlex : List (String × String)
  mb_artistid : String
  storeCount : Nat
deriving DecidableEq, Repr

/-- Model of `item._values_flex.get(key)`, as an `Option`. -/
def flexGet (it : Item) : String → Option String :=
  fun key =>
    (it.valuesFlex.find? (fun p => p.1 = key)).map Prod.snd

/-- Truthiness of `item._values_flex.get('artist_country')`: both a
missing key (`None`) and an empty string are falsy. -/
def flexTruthy (it : Item) (key : String) : Bool :=
  !((flexGet it key).getD "" = "")

/-- Model of `item[key] = value` for a flexible field: dict update on
`_values_flex`. -/
def setFlex (it : Item) (key value : String) : Item :=
  { it with valuesFlex :=
      if it.valuesFlex.any (fun p => p.1 = key) then
        it.valuesFlex.map (fun p => if p.1 = key then (key, value) else p)
      else it.valuesFlex ++ [(key, value)] }

/-- Model of `item.store()`. -/
def storeItem (it : Item) : Item :=
  { it with storeCount := it.storeCount + 1 }

/-- Output of the `artist_country` template field. -/
structure TmplOut where
  ret : String
  st : PluginState
  item : Item
  remoteCalled : Bool
  cacheLoaded : Bool
  logs : Log

/-- Model of `_tmpl_country(item)`: return the stored flexible attribute when it is
truthy; otherwise resolve through `get_artist_country`, assign the result
onto the item when non-empty, and return it WITHOUT calling
`item.store()` (the source notes this is to avoid side effects during
template rendering). -/
def tmpl_country (env : MBEnv) (fuel : Nat) (s : PluginState) (item : Item) :
    Option TmplOut :=
  if flexTruthy item "artist_country" then
    some { ret := (flexGet item "artist_country").getD "", st := s, item := item,
           remoteCalled := false, cacheLoaded := false, logs := [] }
  else
    match get_artist_country env fuel s item.mb_artistid with
    | none => none
    | some g =>
      let item' := if g.ret = "" then item else setFlex item "artist_country" g.ret
      some { ret := g.ret, st := g.st, item := item', remoteCalled := g.remoteCalled,
             cacheLoaded := g.cacheLoaded, logs := g.logs }

/-- The body of the loop of `artistcountry_func` for one item: skip when
the flexible attribute is already truthy; otherwise resolve the country
and, when it is non-empty, assign it, `store()` the item and count the
update.  The `Bool` reports whether this item was counted as updated. -/
def processItem (env : MBEnv) (fuel : Nat) (s : PluginState) (it : Item) :
    Option (Item × PluginState × Bool × Log) :=
  if flexTruthy it "artist_country" then
    some (it, s, false, [])
  else
    match get_artist_country env fuel s it.mb_artistid with
    | none => none
    | some g =>
      if g.ret = "" then
        some (it, g.st, false, g.logs)
      else
        some (storeItem (setFlex it "artist_country" g.ret), g.st, true,
              g.logs ++ [(LogLevel.debug, "Set artist_country=" ++ g.ret)])

/-- The loop of `artistcountry_func` over the matched items, threading the
plugin state; returns the items after the run, the per-item updated flags,
the final state, the update count and the accumulated log. -/
def runItems (env : MBEnv) (fuel : Nat) :
    PluginState → List Item → Option (List Item × List Bool × PluginState × Nat × Log)
  | s, [] => some ([], [], s, 0, [])
  | s, it :: rest =>
    match processItem env fuel s it with
    | none => none
    | some (it', s', b, l) =>
      match runItems env fuel s' rest with
      | none => none
      | some (rest', bs, s'', n, l') =>
        some (it' :: rest', b :: bs, s'', n + (if b then 1 else 0), l ++ l')

/-- Model of `artistcountry_func(lib, opts, args)` on the items matching the query:
logs the item count, runs the loop, and reports the number of updates. -/
def artistcountry_func (env : MBEnv) (fuel : Nat) (s : PluginState)
    (items : List Item) : Option (List Item × List Bool × PluginState × Nat × Log) :=
  match runItems env fuel s items with
  | none => none
  | some (items', bs, s', n, l) =>
    some (items', bs, s', n,
      [(LogLevel.info, "Processing " ++ toString items.length ++ " items...")] ++ l ++
      [(LogLevel.info, "Updated " ++ toString n ++ " items with artist_country")])

/-! ## Helper lemmas -/

/-- Decoding a serialized record gives the record back. -/
theorem jsonToRecord_recordToJson (r : CacheRecord) :
    jsonToRecord (recordToJson r) = some r := by
  rcases r with ⟨c, t, n, e⟩
  rcases c with _ | c <;> rcases t with _ | t <;> rcases n with _ | n <;> rcases e with _ | e <;>
    rfl

/-- Decoding a serialized cache gives the mapping back. -/
theorem jsonToCache_cacheToJson (c : Cache) : jsonToCache (cacheToJson c) = some c := by
  induction c with
  | nil => rfl
  | cons hd tl ih =>
    have ih' : jsonToCacheEntries (tl.map (fun p => (p.1, recordToJson p.2))) = some tl := ih
    simp [cacheToJson, jsonToCache, jsonToCacheEntries, jsonToRecord_recordToJson, ih']

/-- Looking up the key just inserted finds the new record. -/
theorem lookupCache_insertCache (c : Cache) (key : String) (r : CacheRecord) :
    lookupCache (insertCache c key r) key = some r := by
  induction c with
  | nil => simp [insertCache, lookupCache]
  | cons hd tl ih =>
    rcases hd with ⟨k, v⟩
    by_cases hk : k = key
    · simp [insertCache, lookupCache, hk]
    · simp [insertCache, lookupCache, hk, ih]

/-- The function `save_cache` only touches the file, never the in-memory cache. -/
theorem save_cache_cache (s : PluginState) : (save_cache s).cache = s.cache := by
  rcases s with ⟨c, f⟩
  cases c <;> rfl

/-- Applying `Char.ofNat` to a valid codepoint round-trips through `toNat`. -/
theorem toNat_ofNat_valid (n : Nat) (h : n.isValidChar) : (Char.ofNat n).toNat = n := by
  rw [Char.ofNat, dif_pos h]
  rfl

/-- The function `Char.toLower` never produces an ASCII uppercase letter. -/
theorem toLower_not_upper (ch : Char) :
    ¬(65 ≤ (Char.toLower ch).toNat ∧ (Char.toLower ch).toNat ≤ 90) := by
  unfold Char.toLower
  by_cases h : ch.toNat ≥ 65 ∧ ch.toNat ≤ 90
  · rw [if_pos h]
    have hv : (ch.toNat + 32).isValidChar := Or.inl (by omega)
    rw [toNat_ofNat_valid _ hv]
    omega
  · rw [if_neg h]
    omega

/-- No character of a `pyLower` result is an ASCII uppercase letter. -/
theorem pyLower_not_upper (s : String) :
    ∀ ch ∈ (pyLower s).data, ¬(65 ≤ ch.toNat ∧ ch.toNat ≤ 90) := by
  intro ch hch
  have : (pyLower s).data = s.data.map Char.toLower := rfl
  rw [this] at hch
  rcases List.mem_map.mp hch with ⟨c, _, rfl⟩
  exact toLower_not_upper c

/-- The record cached for `id` in state `s`, if the cache is loaded. -/
def cachedRecord (s : PluginState) (id : String) : Option CacheRecord :=
  s.cache.bind (fun c => lookupCache c id)

/-! ## Claims -/

/-- C8: saving any in-memory cache mapping with `save_cache` and loading
it back with `load_cache` in a fresh process (whose `_cache` starts as
`None`) yields an equal mapping: save followed by load is the identity on
cache contents. -/
theorem claim_C8_save_load_roundtrip (c : Cache) (f : CacheFile) :
    (load_cache { cache := none,
                  file := (save_cache { cache := some c, file := f }).file }).1 = c := by
  simp [save_cache, load_cache, jsonToCache_cacheToJson]

/-- C2: an identifier that is empty, not exactly 36 characters long, or
without exactly four hyphens makes `get_artist_country` return the empty
string with no remote call, no cache load or mutation, no log and no
error (the call returns normally). -/
theorem claim_C2_malformed_id (env : MBEnv) (fuel : Nat) (s : PluginState) (id : String)
    (h : id = "" ∨ id.length ≠ 36 ∨ id.data.count '-' ≠ 4) :
    get_artist_country env fuel s id =
      some { ret := "", st := s, remoteCalled := false, cacheLoaded := false, logs := [] } := by
  have hv : validShape id = false := by
    unfold validShape
    rcases h with h | h | h <;> simp [h]
  simp [get_artist_country, hv]

/-- A remote environment used only to instantiate theorems on concrete
inputs; every artist fetch fails. -/
def envErr : MBEnv :=
  { artistFetch := fun _ => Except.error "connection refused",
    areaRels := fun _ => none,
    now := "2024-01-01T00:00:00" }

/-- A plugin state with nothing loaded and no cache file yet. -/
def sEmpty : PluginState := { cache := none, file := CacheFile.missing }

/-- Witness for C2 at the concrete identifier `"abc"`. -/
theorem claim_C2_witness :
    get_artist_country envErr 0 sEmpty "abc" =
      some { ret := "", st := sEmpty, remoteCalled := false, cacheLoaded := false,
             logs := [] } :=
  claim_C2_malformed_id envErr 0 sEmpty "abc" (Or.inr (Or.inl (by decide)))

/-- C1: for an identifier (of the data model's 36-character, four-hyphen
shape) present as a key in the loaded cache, `get_artist_country` returns
the cached record's `country` value (defaulting to the empty string when
the key is absent) and performs no remote call — regardless of whether
the cached value is empty. -/
theorem claim_C1_cached_id_no_remote_call (env : MBEnv) (fuel : Nat) (s : PluginState)
    (id : String) (r : CacheRecord)
    (hshape : validShape id = true)
    (hcached : lookupCache (load_cache s).1 id = some r) :
    get_artist_country env fuel s id =
      some { ret := r.country.getD "", st := (load_cache s).2.1, remoteCalled := false,
             cacheLoaded := true, logs := (load_cache s).2.2 } := by
  unfold get_artist_country
  rcases hl : load_cache s with ⟨cache, s1, logs0⟩
  rw [hl] at hcached
  simp [hshape, hl, hcached]

/-- A 36-character, four-hyphen MusicBrainz-shaped identifier. -/
def idZero : String := "00000000-0000-0000-0000-000000000000"

/-- A cache record holding a non-empty country. -/
def recUS : CacheRecord :=
  { country := some "us", cached := some "2024-01-01T00:00:00", name := some "Band",
    error := none }

/-- A state whose in-memory cache maps `idZero` to `recUS`. -/
def sCached : PluginState :=
  { cache := some [(idZero, recUS)], file := CacheFile.missing }

/-- Witness for C1: the concrete cached identifier `idZero` resolves to
`"us"` from the cache alone. -/
theorem claim_C1_witness :
    get_artist_country envErr 0 sCached idZero =
      some { ret := recUS.country.getD "", st := (load_cache sCached).2.1,
             remoteCalled := false, cacheLoaded := true,
             logs := (load_cache sCached).2.2 } :=
  claim_C1_cached_id_no_remote_call envErr 0 sCached idZero recUS (by decide) rfl

/-- C10: when an item already carries a non-empty `artist_country`
flexible attribute, the template field returns that stored value
unchanged and performs no cache load, no remote call, no state change and
no modification of the item. -/
theorem claim_C10_stored_attr_short_circuits (env : MBEnv) (fuel : Nat) (s : PluginState)
    (item : Item) (v : String)
    (hv : flexGet item "artist_country" = some v) (hne : v ≠ "") :
    tmpl_country env fuel s item =
      some { ret := v, st := s, item := item, remoteCalled := false,
             cacheLoaded := false, logs := [] } := by
  have ht : flexTruthy item "artist_country" = true := by
    simp [flexTruthy, hv, hne]
  simp [tmpl_country, ht, hv]

/-- An item that already stores a non-empty country attribute. -/
def itemStored : Item :=
  { valuesFlex := [("artist_country", "us")], mb_artistid := idZero, storeCount := 0 }

/-- Witness for C10 at the concrete item `itemStored`. -/
theorem claim_C10_witness :
    tmpl_country envErr 0 sEmpty itemStored =
      some { ret := "us", st := sEmpty, item := itemStored, remoteCalled := false,
             cacheLoaded := false, logs := [] } :=
  claim_C10_stored_attr_short_circuits envErr 0 sEmpty itemStored "us" rfl (by decide)

/-- C5: evaluating the `artist_country` template field never invokes
`item.store()` — the item's store counter is unchanged in every outcome,
including the one that resolves a new non-empty country and assigns it
onto the item's in-memory attributes. -/
theorem claim_C5_template_never_stores (env : MBEnv) (fuel : Nat) (s : PluginState)
    (item : Item) (out : TmplOut)
    (h : tmpl_country env fuel s item = some out) :
    out.item.storeCount = item.storeCount := by
  unfold tmpl_country at h
  by_cases ht : flexTruthy item "artist_country" = true
  · rw [if_pos ht] at h
    cases h
    rfl
  · rw [if_neg ht] at h
    rcases hg : get_artist_country env fuel s item.mb_artistid with _ | g
    · rw [hg] at h
      cases h
    · rw [hg] at h
      cases h
      by_cases hr : g.ret = ""
      · simp [hr]
      · simp [hr, setFlex]

/-- Witness for C5: a concrete template evaluation leaving the store
counter unchanged. -/
theorem claim_C5_witness :
    ∃ out, tmpl_country envErr 0 sEmpty itemStored = some out ∧
      out.item.storeCount = itemStored.storeCount :=
  ⟨_, rfl, claim_C5_template_never_stores envErr 0 sEmpty itemStored _ rfl⟩

/-- Evaluation of `get_artist_country` on a valid-shape uncached
identifier whose remote fetch raises: the failure is cached with an empty
country, logged at debug level, and the empty string is returned. -/
theorem gac_fetch_error (env : MBEnv) (fuel : Nat) (s : PluginState) (id e : String)
    (hshape : validShape id = true)
    (hmiss : lookupCache (load_cache s).1 id = none)
    (hfetch : env.artistFetch id = Except.error e) :
    get_artist_country env fuel s id =
      some { ret := "",
             st := save_cache { (load_cache s).2.1 with
                     cache := some (insertCache (load_cache s).1 id
                       { country := some "", cached := some env.now, name := none,
                         error := some e }) },
             remoteCalled := true, cacheLoaded := true,
             logs := (load_cache s).2.2 ++
               [(LogLevel.debug,
                 "Error fetching country for artist " ++ id ++ ": " ++ e)] } := by
  unfold get_artist_country
  rcases hl : load_cache s with ⟨cache, s1, logs0⟩
  rw [hl] at hmiss
  simp [hshape, hl, hmiss, hfetch]

/-- Evaluation of `get_artist_country` on a valid-shape uncached
identifier whose fetch succeeds and whose country/area resolution
(`areaCountry`) finishes with value `country`: the lowercased result is
cached and returned. -/
theorem gac_fetch_ok (env : MBEnv) (fuel : Nat) (s : PluginState) (id : String)
    (artist : Artist) (country : String) (wlogs : Log)
    (hshape : validShape id = true)
    (hmiss : lookupCache (load_cache s).1 id = none)
    (hfetch : env.artistFetch id = Except.ok artist)
    (hw : areaCountry env fuel id artist = some (country, wlogs)) :
    get_artist_country env fuel s id =
      some { ret := if country = "" then "" else pyLower country,
             st := save_cache { (load_cache s).2.1 with
                     cache := some (insertCache (load_cache s).1 id
                       { country := some (if country = "" then "" else pyLower country),
                         cached := some env.now, name := some (artist.name.getD ""),
                         error := none }) },
             remoteCalled := true, cacheLoaded := true,
             logs := (load_cache s).2.2 ++ wlogs } := by
  unfold get_artist_country
  rcases hl : load_cache s with ⟨cache, s1, logs0⟩
  rw [hl] at hmiss
  simp [hshape, hl, hmiss, hfetch, hw]

/-- When the area walk never finishes (`areaCountry` runs out of fuel),
`get_artist_country` does not finish either. -/
theorem gac_walk_diverges (env : MBEnv) (fuel : Nat) (s : PluginState) (id : String)
    (artist : Artist)
    (hshape : validShape id = true)
    (hmiss : lookupCache (load_cache s).1 id = none)
    (hfetch : env.artistFetch id = Except.ok artist)
    (hw : areaCountry env fuel id artist = none) :
    get_artist_country env fuel s id = none := by
  unfold get_artist_country
  rcases hl : load_cache s with ⟨cache, s1, logs0⟩
  rw [hl] at hmiss
  simp [hshape, hl, hmiss, hfetch, hw]

/-- After inserting a record and saving, the record is cached in memory. -/
theorem cachedRecord_after_insert (s1 : PluginState) (c : Cache) (id : String)
    (r : CacheRecord) :
    cachedRecord (save_cache { s1 with cache := some (insertCache c id r) }) id = some r := by
  have h := save_cache_cache { s1 with cache := some (insertCache c id r) }
  simp [cachedRecord, h, lookupCache_insertCache]

/-- C9: every cache record written by `get_artist_country` (on a
valid-shape identifier that was not yet cached) has a `country` field that
is the empty string or entirely lowercase (no ASCII uppercase letter), and
the value returned for that lookup equals the stored `country` field. -/
theorem claim_C9_written_records_lowercase (env : MBEnv) (fuel : Nat) (s : PluginState)
    (id : String) (out : GACOut)
    (hshape : validShape id = true)
    (hmiss : lookupCache (load_cache s).1 id = none)
    (h : get_artist_country env fuel s id = some out) :
    ∃ r, cachedRecord out.st id = some r ∧ r.country = some out.ret ∧
      ∀ ch ∈ out.ret.data, ¬(65 ≤ ch.toNat ∧ ch.toNat ≤ 90) := by
  rcases hfetch : env.artistFetch id with e | artist
  · rw [gac_fetch_error env fuel s id e hshape hmiss hfetch] at h
    injection h with h
    subst h
    refine ⟨_, cachedRecord_after_insert _ _ _ _, rfl, ?_⟩
    intro ch hch
    simp [String.data] at hch
  · rcases hw : areaCountry env fuel id artist with _ | ⟨country, wlogs⟩
    · rw [gac_walk_diverges env fuel s id artist hshape hmiss hfetch hw] at h
      cases h
    · rw [gac_fetch_ok env fuel s id artist country wlogs hshape hmiss hfetch hw] at h
      injection h with h
      subst h
      refine ⟨_, cachedRecord_after_insert _ _ _ _, rfl, ?_⟩
      by_cases hc : country = ""
      · intro ch hch
        simp [hc, String.data] at hch
      · intro ch hch
        rw [if_neg hc] at hch
        exact pyLower_not_upper country ch hch

/-- An area of type City with no ISO codes, one backward relation away
from a country. -/
def areaCity : Area := { id := "a-city", type := some "City", isoCodes := none }

/-- A country-typed area carrying the ISO 3166-1 code list `["US"]`. -/
def areaUS : Area := { id := "a-us", type := some "Country", isoCodes := some ["US"] }

/-- An environment whose only artist has no country but sits in
`areaCity`, whose backward-relation hierarchy ends at `areaUS`. -/
def envUS : MBEnv :=
  { artistFetch := fun _ =>
      Except.ok { country := none, area := some areaCity, name := some "Band" },
    areaRels := fun aid =>
      if aid = "a-city" then
        some [{ direction := some "backward", area := areaUS }]
      else some [],
    now := "2024-01-01T00:00:00" }

/-- Witness for C9: the concrete resolution of `idZero` through `envUS`
writes a lowercase record whose country equals the returned value. -/
theorem claim_C9_witness :
    ∃ out, get_artist_country envUS 1 sEmpty idZero = some out ∧
      ∃ r, cachedRecord out.st idZero = some r ∧ r.country = some out.ret ∧
        ∀ ch ∈ out.ret.data, ¬(65 ≤ ch.toNat ∧ ch.toNat ≤ 90) :=
  ⟨_, rfl,
    claim_C9_written_records_lowercase envUS 1 sEmpty idZero _ (by decide) rfl rfl⟩

/-- C3 (amended): for an uncached valid-shape identifier whose fetched
artist record lacks a country but references an area whose
backward-relation walk (recursing on the first backward relation at each
step) returns an ISO 3166-1 code list, `get_artist_country` returns the
LOWERCASED first code of that list — the code returns
`country.lower()`, not the code verbatim. -/
theorem claim_C3_area_walk_result (env : MBEnv) (fuel : Nat) (s : PluginState)
    (id : String) (artist : Artist) (a : Area) (codes : List String) (c : String)
    (hshape : validShape id = true)
    (hmiss : lookupCache (load_cache s).1 id = none)
    (hfetch : env.artistFetch id = Except.ok artist)
    (hnoc : artist.country.getD "" = "")
    (harea : artist.area = some a)
    (hwalk : find_top_area env fuel a = some (Except.ok codes))
    (hhead : codes.head? = some c) :
    ∃ out, get_artist_country env fuel s id = some out ∧ out.ret = pyLower c := by
  have hac : areaCountry env fuel id artist = some (c, []) := by
    unfold areaCountry
    simp [hnoc, harea, country_from_area, hwalk, hhead]
  refine ⟨_, gac_fetch_ok env fuel s id artist c [] hshape hmiss hfetch hac, ?_⟩
  by_cases hc : c = ""
  · simp [hc, pyLower]
  · simp [hc]

/-- Counterexample to C3 as stated: in `envUS` the walk from `areaCity`
terminates at the country-typed `areaUS` whose first ISO code is `"US"`,
yet `get_artist_country` returns `"us"`, not that code. -/
theorem claim_C3_counterexample :
    envUS.artistFetch idZero =
      Except.ok { country := none, area := some areaCity, name := some "Band" } ∧
    find_top_area envUS 1 areaCity = some (Except.ok ["US"]) ∧
    ∃ out, get_artist_country envUS 1 sEmpty idZero = some out ∧
      out.ret = "us" ∧ out.ret ≠ "US" :=
  ⟨rfl, rfl, _, rfl, rfl, by decide⟩

/-- Witness for C3 (amended) at the concrete environment `envUS`. -/
theorem claim_C3_witness :
    ∃ out, get_artist_country envUS 1 sEmpty idZero = some out ∧
      out.ret = pyLower "US" :=
  claim_C3_area_walk_result envUS 1 sEmpty idZero _ areaCity ["US"] "US"
    (by decide) rfl rfl rfl rfl rfl rfl

/-- C4: for an uncached valid-shape identifier, when the remote artist
fetch raises, or the fetch succeeds on a country-less artist with an area
but the area-hierarchy walk raises, `get_artist_country` catches the
exception, logs a debug line, caches a record with an empty country for
that identifier, and returns the empty string instead of propagating. -/
theorem claim_C4_failures_cached_empty (env : MBEnv) (fuel : Nat) (s : PluginState)
    (id : String)
    (hshape : validShape id = true)
    (hmiss : lookupCache (load_cache s).1 id = none)
    (hfail : (∃ e, env.artistFetch id = Except.error e) ∨
             (∃ artist a, env.artistFetch id = Except.ok artist ∧
                artist.country.getD "" = "" ∧ artist.area = some a ∧
                country_from_area env fuel a = some (Except.error ()))) :
    ∃ out, get_artist_country env fuel s id = some out ∧ out.ret = "" ∧
      (∃ r, cachedRecord out.st id = some r ∧ r.country = some "") ∧
      (∃ m, (LogLevel.debug, m) ∈ out.logs) := by
  rcases hfail with ⟨e, hfetch⟩ | ⟨artist, a, hfetch, hnoc, harea, hwalk⟩
  · refine ⟨_, gac_fetch_error env fuel s id e hshape hmiss hfetch, rfl, ?_, ?_⟩
    · exact ⟨_, cachedRecord_after_insert _ _ _ _, rfl⟩
    · exact ⟨"Error fetching country for artist " ++ id ++ ": " ++ e, by simp⟩
  · have hac : areaCountry env fuel id artist =
        some ("", [(LogLevel.debug, "No country from area for artist " ++ id)]) := by
      unfold areaCountry
      simp [hnoc, harea, hwalk]
    refine ⟨_, gac_fetch_ok env fuel s id artist "" _ hshape hmiss hfetch hac, rfl, ?_, ?_⟩
    · exact ⟨_, cachedRecord_after_insert _ _ _ _, rfl⟩
    · exact ⟨"No country from area for artist " ++ id, by simp⟩

/-- Witness for C4 at the concrete failing environment `envErr`. -/
theorem claim_C4_witness :
    ∃ out, get_artist_country envErr 0 sEmpty idZero = some out ∧ out.ret = "" ∧
      (∃ r, cachedRecord out.st idZero = some r ∧ r.country = some "") ∧
      (∃ m, (LogLevel.debug, m) ∈ out.logs) :=
  claim_C4_failures_cached_empty envErr 0 sEmpty idZero (by decide) rfl
    (Or.inl ⟨"connection refused", rfl⟩)

/-- If the walk finishes within `n` fuel, the chain of first backward
relations stops within `n` steps. -/
theorem find_top_area_isSome_stops (env : MBEnv) :
    ∀ (n : Nat) (a : Area), (find_top_area env n a).isSome = true → stops env n a = true := by
  intro n
  induction n with
  | zero => intro a h; simp [find_top_area] at h
  | succ n ih =>
    intro a h
    rw [find_top_area] at h
    rw [stops, walkStep]
    rcases hr : env.areaRels a.id with _ | rels
    · simp [hr]
    · simp only [hr] at h ⊢
      rcases hb : backwardAreas rels with _ | ⟨a1, rest⟩
      · simp [hb]
      · simp only [hb] at h ⊢
        rcases hc : has_country_iso_code a1 with _ | b
        · simp [hc]
        · simp only [hc] at h ⊢
          cases b
          · simp only [] at h ⊢
            simpa using ih a1 h
          · simp

/-- If the chain of first backward relations stops within `n` steps, the
walk finishes within `n` fuel. -/
theorem stops_find_top_area_isSome (env : MBEnv) :
    ∀ (n : Nat) (a : Area), stops env n a = true → (find_top_area env n a).isSome = true := by
  intro n
  induction n with
  | zero => intro a h; simp [stops] at h
  | succ n ih =>
    intro a h
    rw [stops, walkStep] at h
    rw [find_top_area]
    rcases hr : env.areaRels a.id with _ | rels
    · simp [hr]
    · simp only [hr] at h ⊢
      rcases hb : backwardAreas rels with _ | ⟨a1, rest⟩
      · simp only [hb]
        cases hi : a.isoCodes <;> simp [hi]
      · simp only [hb] at h ⊢
        rcases hc : has_country_iso_code a1 with _ | b
        · simp [hc]
        · simp only [hc] at h ⊢
          cases b
          · simp at h
            simpa using ih a1 h
          · cases hi : a1.isoCodes <;> simp [hi]

/-- C7 (amended): the recursive traversal `_find_top_area` terminates
exactly on those inputs whose chain of first backward relations stops —
reaches, within finitely many steps, an area with no backward relations,
an area typed as a country with an ISO code list, or a raising lookup.
On hierarchy data where that chain never stops (e.g. a cycle), the
traversal does not terminate. -/
theorem claim_C7_termination_iff_chain_stops (env : MBEnv) (a : Area) :
    Terminates env a ↔ ∃ n, stops env n a = true := by
  constructor
  · rintro ⟨fuel, h⟩
    exact ⟨fuel, find_top_area_isSome_stops env fuel a h⟩
  · rintro ⟨n, h⟩
    exact ⟨n, stops_find_top_area_isSome env n a h⟩

/-- A subdivision-typed area whose first backward relation is itself: a
cyclic hierarchy. -/
def areaLoop : Area := { id := "a-loop", type := some "Subdivision", isoCodes := none }

/-- An environment whose area hierarchy contains the cycle
`areaLoop → areaLoop`. -/
def envLoop : MBEnv :=
  { artistFetch := fun _ =>
      Except.ok { country := none, area := some areaLoop, name := some "Band" },
    areaRels := fun _ => some [{ direction := some "backward", area := areaLoop }],
    now := "2024-01-01T00:00:00" }

/-- On the cyclic hierarchy, no amount of fuel finishes the walk. -/
theorem find_top_area_envLoop (n : Nat) : find_top_area envLoop n areaLoop = none := by
  induction n with
  | zero => rfl
  | succ n ih =>
    rw [find_top_area]
    exact ih

/-- Counterexample to C7 as stated: on the cyclic hierarchy `envLoop`,
the recursive traversal `_find_top_area` started at `areaLoop` does not
terminate — no finite number of steps reaches an area with no backward
relations or a country-typed area (the source has no cycle guard). -/
theorem claim_C7_counterexample : ¬ Terminates envLoop areaLoop := by
  rintro ⟨fuel, h⟩
  rw [find_top_area_envLoop fuel] at h
  simp at h

/-- What one loop iteration of `artistcountry_func` does to its item: a
truthy stored attribute skips the item outright; otherwise the item's
identifier is resolved through `get_artist_country` from the current
state, and the item is persisted (attribute set to the resolved country,
`item.store()` called) and counted exactly when that resolution is
non-empty, being left unchanged when it is empty. -/
theorem processItem_spec (env : MBEnv) (fuel : Nat) (s : PluginState) (it it' : Item)
    (s' : PluginState) (b : Bool) (lg : Log)
    (h : processItem env fuel s it = some (it', s', b, lg)) :
    (flexTruthy it "artist_country" = true → it' = it ∧ s' = s ∧ b = false) ∧
    (flexTruthy it "artist_country" = false →
      ∃ g, get_artist_country env fuel s it.mb_artistid = some g ∧ s' = g.st ∧
        (g.ret = "" → b = false ∧ it' = it) ∧
        (g.ret ≠ "" → b = true ∧ it' = storeItem (setFlex it "artist_country" g.ret))) := by
  unfold processItem at h
  by_cases ht : flexTruthy it "artist_country" = true
  · rw [if_pos ht] at h
    simp only [Option.some.injEq, Prod.mk.injEq] at h
    obtain ⟨rfl, rfl, rfl, rfl⟩ := h
    exact ⟨fun _ => ⟨rfl, rfl, rfl⟩, fun hf => by rw [hf] at ht; exact absurd ht (by decide)⟩
  · rw [if_neg ht] at h
    rcases hg : get_artist_country env fuel s it.mb_artistid with _ | g
    · rw [hg] at h
      cases h
    · simp only [hg] at h
      by_cases hr : g.ret = ""
      · rw [if_pos hr] at h
        simp only [Option.some.injEq, Prod.mk.injEq] at h
        obtain ⟨rfl, rfl, rfl, rfl⟩ := h
        exact ⟨fun hT => absurd hT ht,
          fun _ => ⟨g, rfl, rfl, fun _ => ⟨rfl, rfl⟩, fun hne => absurd hr hne⟩⟩
      · rw [if_neg hr] at h
        simp only [Option.some.injEq, Prod.mk.injEq] at h
        obtain ⟨rfl, rfl, rfl, rfl⟩ := h
        exact ⟨fun hT => absurd hT ht,
          fun _ => ⟨g, rfl, rfl, fun he => absurd he hr, fun _ => ⟨rfl, rfl⟩⟩⟩

/-- The loop of `artistcountry_func`, characterized: output lists are
parallel to the input, the count is the number of updated flags, and
there is a chain of plugin states, starting at the initial state and
ending at the final one, along which each item is skipped when its stored
attribute is truthy and otherwise resolved through `get_artist_country`
from its chain state, persisted with exactly the resolved country, stored
and counted when that resolution is non-empty, and left unchanged when it
is empty. -/
theorem runItems_spec (env : MBEnv) (fuel : Nat) :
    ∀ (items : List Item) (s : PluginState) (items' : List Item) (bs : List Bool)
      (s' : PluginState) (n : Nat) (l : Log),
      runItems env fuel s items = some (items', bs, s', n, l) →
      items'.length = items.length ∧ bs.length = items.length ∧ n = bs.count true ∧
      ∃ sts : List PluginState, sts.length = items.length + 1 ∧
        sts.head? = some s ∧ sts.getLast? = some s' ∧
        ∀ i (h1 : i < items.length) (h2 : i < items'.length) (h3 : i < bs.length)
          (h4 : i < sts.length) (h5 : i + 1 < sts.length),
          (flexTruthy (items.get ⟨i, h1⟩) "artist_country" = true →
             items'.get ⟨i, h2⟩ = items.get ⟨i, h1⟩ ∧ bs.get ⟨i, h3⟩ = false ∧
             sts.get ⟨i + 1, h5⟩ = sts.get ⟨i, h4⟩) ∧
          (flexTruthy (items.get ⟨i, h1⟩) "artist_country" = false →
             ∃ g, get_artist_country env fuel (sts.get ⟨i, h4⟩)
                    (items.get ⟨i, h1⟩).mb_artistid = some g ∧
               sts.get ⟨i + 1, h5⟩ = g.st ∧
               (g.ret = "" →
                  bs.get ⟨i, h3⟩ = false ∧ items'.get ⟨i, h2⟩ = items.get ⟨i, h1⟩) ∧
               (g.ret ≠ "" →
                  bs.get ⟨i, h3⟩ = true ∧
                  items'.get ⟨i, h2⟩ =
                    storeItem (setFlex (items.get ⟨i, h1⟩) "artist_country" g.ret))) := by
  intro items
  induction items with
  | nil =>
    intro s items' bs s' n l h
    simp only [runItems, Option.some.injEq, Prod.mk.injEq] at h
    obtain ⟨rfl, rfl, rfl, rfl, rfl⟩ := h
    refine ⟨rfl, rfl, rfl, [s], rfl, rfl, rfl, ?_⟩
    intro i h1
    exact absurd h1 (Nat.not_lt_zero i)
  | cons it rest ih =>
    intro s items' bs s' n l h
    rw [runItems] at h
    rcases hp : processItem env fuel s it with _ | ⟨it1, s1, b, lg⟩
    · rw [hp] at h
      cases h
    · simp only [hp] at h
      rcases hr : runItems env fuel s1 rest with _ | ⟨rest', bs1, s2, n1, l1⟩
      · rw [hr] at h
        cases h
      · simp only [hr, Option.some.injEq, Prod.mk.injEq] at h
        obtain ⟨rfl, rfl, rfl, rfl, rfl⟩ := h
        obtain ⟨hl1, hl2, hn, sts1, hslen, hshead, hslast, hpt⟩ :=
          ih s1 rest' bs1 s2 n1 l1 hr
        have hspec := processItem_spec env fuel s it it1 s1 b lg hp
        rcases sts1 with _ | ⟨st0, tail⟩
        · cases hshead
        · have hst0 : s1 = st0 := by
            have h0 := hshead
            simp only [List.head?_cons, Option.some.injEq] at h0
            exact h0.symm
          subst hst0
          refine ⟨by simp [hl1], by simp [hl2], ?_, s :: s1 :: tail, ?_, rfl, ?_, ?_⟩
          · cases b <;> simp [List.count_cons, hn]
          · simpa using hslen
          · rw [List.getLast?_cons_cons]
            exact hslast
          · intro i h1 h2 h3 h4 h5
            cases i with
            | zero =>
              refine ⟨?_, ?_⟩
              · intro ht
                obtain ⟨e1, e2, e3⟩ := hspec.1 (by simpa using ht)
                simp [e1, e2, e3]
              · intro hf
                obtain ⟨g, hg, hst, hempty, hnon⟩ := hspec.2 (by simpa using hf)
                refine ⟨g, by simpa using hg, by simpa using hst, ?_, ?_⟩
                · intro hre
                  obtain ⟨e1, e2⟩ := hempty hre
                  simp [e1, e2]
                · intro hne
                  obtain ⟨e1, e2⟩ := hnon hne
                  simp [e1, e2]
            | succ j =>
              have hj := hpt j (by simpa using h1) (by simpa using h2) (by simpa using h3)
                (by simpa using h4) (by simpa using h5)
              simpa using hj

/-- C6 (amended): the `artistcountry` subcommand leaves unchanged every
item whose stored `artist_country` attribute is non-empty; every other
item has its identifier resolved through `get_artist_country` from the
plugin state the loop carries at that point (the exhibited state chain
running from the initial to the final state), and is persisted —
attribute set to exactly the resolved country, `item.store()` called —
and counted exactly when that resolution is non-empty, being left
unchanged when the resolution comes back empty; the reported count is the
number of items persisted. -/
theorem claim_C6_subcommand_run (env : MBEnv) (fuel : Nat) (s : PluginState)
    (items items' : List Item) (bs : List Bool) (s' : PluginState) (n : Nat) (l : Log)
    (h : artistcountry_func env fuel s items = some (items', bs, s', n, l)) :
    items'.length = items.length ∧ bs.length = items.length ∧ n = bs.count true ∧
    l.getLast? =
      some (LogLevel.info, "Updated " ++ toString n ++ " items with artist_country") ∧
    ∃ sts : List PluginState, sts.length = items.length + 1 ∧
      sts.head? = some s ∧ sts.getLast? = some s' ∧
      ∀ i (h1 : i < items.length) (h2 : i < items'.length) (h3 : i < bs.length)
        (h4 : i < sts.length) (h5 : i + 1 < sts.length),
        (flexTruthy (items.get ⟨i, h1⟩) "artist_country" = true →
           items'.get ⟨i, h2⟩ = items.get ⟨i, h1⟩ ∧ bs.get ⟨i, h3⟩ = false ∧
           sts.get ⟨i + 1, h5⟩ = sts.get ⟨i, h4⟩) ∧
        (flexTruthy (items.get ⟨i, h1⟩) "artist_country" = false →
           ∃ g, get_artist_country env fuel (sts.get ⟨i, h4⟩)
                  (items.get ⟨i, h1⟩).mb_artistid = some g ∧
             sts.get ⟨i + 1, h5⟩ = g.st ∧
             (g.ret = "" →
                bs.get ⟨i, h3⟩ = false ∧ items'.get ⟨i, h2⟩ = items.get ⟨i, h1⟩) ∧
             (g.ret ≠ "" →
                bs.get ⟨i, h3⟩ = true ∧
                items'.get ⟨i, h2⟩ =
                  storeItem (setFlex (items.get ⟨i, h1⟩) "artist_country" g.ret))) := by
  unfold artistcountry_func at h
  rcases hr : runItems env fuel s items with _ | ⟨i0, b0, s0, n0, l0⟩
  · rw [hr] at h
    cases h
  · simp only [hr, Option.some.injEq, Prod.mk.injEq] at h
    obtain ⟨rfl, rfl, rfl, rfl, rfl⟩ := h
    obtain ⟨h1, h2, h3, h4⟩ := runItems_spec env fuel items s i0 b0 s0 n0 l0 hr
    refine ⟨h1, h2, h3, ?_, h4⟩
    rw [List.getLast?_concat]

/-- An environment whose only artist exists remotely but has neither a
country nor an area: resolution succeeds with the empty string. -/
def envNoCountry : MBEnv :=
  { artistFetch := fun _ =>
      Except.ok { country := none, area := none, name := some "Solo" },
    areaRels := fun _ => some [],
    now := "2024-01-01T00:00:00" }

/-- An item with no flexible attributes at all. -/
def itemBare : Item := { valuesFlex := [], mb_artistid := idZero, storeCount := 0 }

/-- Counterexample to C6 as stated: `itemBare` carries no stored
`artist_country`, so the claim requires the run to persist the attribute
for it; but its resolution is empty, and the run leaves it unchanged (no
attribute, no `store()`) and reports zero updates. -/
theorem claim_C6_counterexample :
    flexGet itemBare "artist_country" = none ∧
    ∃ s' l, artistcountry_func envNoCountry 1 sEmpty [itemBare] =
      some ([itemBare], [false], s', 0, l) :=
  ⟨rfl, _, _, rfl⟩

/-- Witness for C6 (amended) on a concrete two-item run: the first item
carries a non-empty stored attribute and is skipped unchanged; the second
resolves to `"us"` through `envUS` and is persisted — attribute set to
the resolved country and its store counter bumped — with the run
reporting one update. -/
theorem claim_C6_witness :
    ∃ s' l,
      artistcountry_func envUS 1 sEmpty [itemStored, itemBare] =
        some ([itemStored,
               { valuesFlex := [("artist_country", "us")], mb_artistid := idZero,
                 storeCount := 1 }],
              [false, true], s', 1, l) ∧
      (1 : Nat) = [false, true].count true ∧
      l.getLast? =
        some (LogLevel.info, "Updated " ++ toString 1 ++ " items with artist_country") := by
  refine ⟨_, _, rfl, ?_, ?_⟩
  · exact (claim_C6_subcommand_run envUS 1 sEmpty [itemStored, itemBare]
      _ _ _ _ _ rfl).2.2.1
  · exact (claim_C6_subcommand_run envUS 1 sEmpty [itemStored, itemBare]
      _ _ _ _ _ rfl).2.2.2.1

end ArtistCountry
